import Mathlib

/-!
Verification of the task-list command-interpretation and state engine of the
telegram todo bot.  The repository holds two variants of the engine:

* `bot_github_production.py`    (class `TodoBot`,     embedded below as `V1`)
* `bot_github_production_v3.py` (class `TodoManager` / `CleanTodoBot`, embedded
  below as `V3`)

Both are embedded shallowly: the per-user mutable state becomes an explicit
state value, every mutating method becomes a pure function returning the
result together with the new state, and Python object identity (used by
`list.remove` and by `first_todo != second_todo`) is modelled by list
positions.  Persistence (`_save_data`) and the chat transport are outside the
engine and are not modelled; an outbound reply is modelled as an
`Option String` (`none` = no message sent).
-/

namespace TodoBot

/-! ### Python string primitives

Python `str` operations work on code points; we model them over `String.data`
(the character list).  `pyIsDigit` models `str.isdigit` restricted to the
ASCII digits actually produced by the bot's users (Python would also accept
other Unicode digit classes); `int(...)` is modelled by `pyToNat`, which the
code only applies to strings that passed `isdigit`. -/

def pyIsDigit (s : String) : Bool :=
  !s.data.isEmpty && s.data.all Char.isDigit

/-- `int(s)` on a string of ASCII digits. -/
def pyToNat (s : String) : Nat :=
  s.data.foldl (fun n c => n * 10 + (c.toNat - ('0').toNat)) 0

/-- `s[n:]` -/
def pyDrop (s : String) (n : Nat) : String :=
  String.mk (s.data.drop n)

/-- `s[:-1]` (drop the final character). -/
def pyDropLastChar (s : String) : String :=
  String.mk (s.data.take (s.data.length - 1))

/-- `s[-1]`; only used under a `len(s) > 1` guard, the default is irrelevant. -/
def pyLastChar (s : String) : Char :=
  s.data.getLastD (Char.ofNat 0)

/-- `s.startswith(pre)` -/
def pyStartsWith (s pre : String) : Bool :=
  s.data.take pre.data.length == pre.data

/-- `s.strip()` -/
def pyStrip (s : String) : String :=
  String.mk (((s.data.dropWhile Char.isWhitespace).reverse.dropWhile
    Char.isWhitespace).reverse)

/-- `len(s)` -/
def pyLen (s : String) : Nat := s.data.length

/-- `c in s` for a single character. -/
def pyContainsChar (s : String) (c : Char) : Bool := s.data.contains c

/-- Splitting a character list at every occurrence of `c`,
agreeing with Python `str.split(sep)` for a one-character separator
(`"".split(sep) = [""]`, `"+".split("+") = ["", ""]`). -/
def splitCharList (c : Char) (l : List Char) : List (List Char) :=
  l.foldr
    (fun a acc =>
      if a = c then [] :: acc
      else match acc with
        | h :: t => (a :: h) :: t
        | [] => [[a]])
    [[]]

/-- `s.split(c)` for a one-character separator `c`. -/
def pySplitChar (s : String) (c : Char) : List String :=
  (splitCharList c s.data).map String.mk

namespace V3

/-- The four section values (`"закупівля"`, `"гараж"`, `"волинка"`,
`"виконано"` in the source).  An enumeration is used instead of raw strings;
every section string the v3 code ever stores is one of these four. -/
inductive Section where
  | zakupivlia   -- "закупівля"  (Inbox / default)
  | harazh       -- "гараж"
  | volynka      -- "волинка"
  | vykonano     -- "виконано"   (Done)
deriving DecidableEq

/-- `class TodoItem` of `bot_github_production_v3.py` (lines 27-34).
The field `section` is a Lean keyword, hence `sect`. -/
structure TodoItem where
  text : String
  item_id : Nat
  crossed_out : Bool
  sect : Section
deriving DecidableEq

/-- The per-user slice of `TodoManager`'s state:
`user_todos[uid]`, `next_ids[uid]` and `backups[uid]`.  A user that was never
seen starts (lazily) as `⟨[], 1, []⟩`; an absent backup entry is modelled by
the empty list, exactly as the v3 code treats it (`if user_id in self.backups
and self.backups[user_id]`). -/
structure UserState where
  todos : List TodoItem
  next_id : Nat
  backup : List TodoItem
deriving DecidableEq

/-- The body of the toggle mutation of `toggle_todo` (lines 256-262):
flip `crossed_out`, then force the section to `"виконано"` or back to
`"закупівля"`. -/
def toggleItem (t : TodoItem) : TodoItem :=
  let c := !t.crossed_out
  { t with crossed_out := c,
           sect := if c then Section.vykonano else Section.zakupivlia }

/-- The `ordered` list built by `get_todo_by_display_number` (lines 231-238),
paired with each task's position in `todos` to model Python object identity:
active sections in fixed order (skipping crossed-out tasks), then the
completed tasks. -/
def orderedPairs (l : List TodoItem) : List (Nat × TodoItem) :=
  (l.enum.filter fun p => p.2.sect == Section.zakupivlia && !p.2.crossed_out)
    ++ (l.enum.filter fun p => p.2.sect == Section.harazh && !p.2.crossed_out)
    ++ (l.enum.filter fun p => p.2.sect == Section.volynka && !p.2.crossed_out)
    ++ (l.enum.filter fun p => p.2.crossed_out || p.2.sect == Section.vykonano)

/-- `get_todo_by_display_number` (lines 226-242), returning the position
together with the task (`1 <= display_num <= len(ordered)`). -/
def lookupPair (s : UserState) (n : Nat) : Option (Nat × TodoItem) :=
  if 1 ≤ n ∧ n ≤ (orderedPairs s.todos).length
  then (orderedPairs s.todos)[n - 1]?
  else none

/-- `get_todo_by_display_number`'s visible result: the task itself. -/
def get_todo_by_display_number (s : UserState) (n : Nat) : Option TodoItem :=
  (lookupPair s n).map (fun p => p.2)

/-- The section chosen by `add_todo`'s prefix test (lines 176-182):
`!!` → волинка, `!` → гараж, otherwise закупівля.  Never виконано. -/
def addSection (text : String) : Section :=
  if pyStartsWith text "!!" then Section.volynka
  else if pyStartsWith text "!" then Section.harazh
  else Section.zakupivlia

/-- The stored text produced by `add_todo`'s prefix strip (lines 176-182).
Note the v3 code does not test that anything remains after the strip. -/
def addText (text : String) : String :=
  if pyStartsWith text "!!" then pyStrip (pyDrop text 2)
  else if pyStartsWith text "!" then pyStrip (pyDrop text 1)
  else text

/-- `add_todo` (lines 169-188): strip a `!!`/`!` prefix to pick the section,
allocate `next_id`, append. -/
def add_todo (s : UserState) (text : String) : TodoItem × UserState :=
  let todo : TodoItem := ⟨addText text, s.next_id, false, addSection text⟩
  (todo, { todos := s.todos ++ [todo], next_id := s.next_id + 1,
           backup := s.backup })

/-- `remove_todo` (lines 244-251): `list.remove` on the looked-up object,
i.e. removal at its position. -/
def remove_todo (s : UserState) (n : Nat) : Bool × UserState :=
  match lookupPair s n with
  | some (i, _) => (true, { s with todos := s.todos.eraseIdx i })
  | none => (false, s)

/-- `toggle_todo` (lines 253-265): in-place mutation of the looked-up object. -/
def toggle_todo (s : UserState) (n : Nat) : Bool × UserState :=
  match lookupPair s n with
  | some (i, t) => (true, { s with todos := s.todos.set i (toggleItem t) })
  | none => (false, s)

/-- `move_todo_to_section` (lines 267-278). -/
def move_todo_to_section (s : UserState) (n : Nat) (target : Section) :
    Bool × UserState :=
  match lookupPair s n with
  | some (i, t) =>
      let t' : TodoItem :=
        { t with sect := target, crossed_out := target == Section.vykonano }
      (true, { s with todos := s.todos.set i t' })
  | none => (false, s)

/-- `merge_todos` (lines 280-290): both lookups run against the same state;
`first_todo != second_todo` is Python object identity, i.e. distinct
positions; the first task's text is extended and the second object removed. -/
def merge_todos (s : UserState) (n1 n2 : Nat) : Bool × UserState :=
  match lookupPair s n1, lookupPair s n2 with
  | some (i, t1), some (j, t2) =>
      if i ≠ j then
        let t1' : TodoItem := { t1 with text := t1.text ++ " " ++ t2.text }
        (true, { s with todos := (s.todos.set i t1').eraseIdx j })
      else (false, s)
  | _, _ => (false, s)

/-- `clear_todos` (lines 292-301): back up the whole list only when it is
non-empty, empty it, return the count. -/
def clear_todos (s : UserState) : Nat × UserState :=
  let count := s.todos.length
  if count > 0 then
    (count, { todos := [], next_id := s.next_id, backup := s.todos })
  else
    (count, { todos := [], next_id := s.next_id, backup := s.backup })

/-- `restore_backup` (lines 303-311): copy the backup back (when non-empty),
clear the backup slot, return the count; `next_id` is not touched. -/
def restore_backup (s : UserState) : Nat × UserState :=
  if s.backup.isEmpty then (0, s)
  else (s.backup.length,
        { todos := s.backup, next_id := s.next_id, backup := [] })

/-- `continue_list` (lines 313-325): the completed tasks
(`crossed_out or section == "виконано"`) become the new backup (only when
there are any) and the rest stay, in order. -/
def continue_list (s : UserState) : Nat × UserState :=
  let completed := s.todos.filter
    (fun t => t.crossed_out || t.sect == Section.vykonano)
  if completed.isEmpty then (0, s)
  else (completed.length,
        { todos := s.todos.filter
            (fun t => !t.crossed_out && t.sect != Section.vykonano),
          next_id := s.next_id,
          backup := completed })

/-- The traversal order of `get_formatted_list` (lines 203-222): the same
bucket filters, in the same order, as `get_todo_by_display_number`. -/
def renderOrder (l : List TodoItem) : List TodoItem :=
  (l.filter fun t => t.sect == Section.zakupivlia && !t.crossed_out)
    ++ (l.filter fun t => t.sect == Section.harazh && !t.crossed_out)
    ++ (l.filter fun t => t.sect == Section.volynka && !t.crossed_out)
    ++ (l.filter fun t => t.crossed_out || t.sect == Section.vykonano)

/-- The `(display_num, todo)` pairs emitted by `get_formatted_list`'s counter:
`display_num` starts at 1 and increments once per printed task across all
sections. -/
def renderEntries (s : UserState) : List (Nat × TodoItem) :=
  (renderOrder s.todos).enum.map (fun p => (p.1 + 1, p.2))

/-- `''.join(char + '̶' for char in text)` (line 220). -/
def strikethrough (t : String) : String :=
  String.mk (t.data.foldr (fun c r => c :: Char.ofNat 0x336 :: r) [])

/-- Section headers of `get_formatted_list` (lines 196-201). -/
def sectionTitle : Section → String
  | Section.zakupivlia => "🛒 Закупівля"
  | Section.harazh => "🔧 Гараж"
  | Section.volynka => "🎯 Волинка"
  | Section.vykonano => "✅ Виконано"

/-- One rendered section block: header (only when non-empty) followed by the
numbered task lines, the counter starting at `start`. -/
def renderBlock (start : Nat) (title : String) (ts : List TodoItem)
    (line : TodoItem → String) : List String :=
  if ts.isEmpty then []
  else ("\n" ++ title)
    :: ts.enum.map (fun p => toString (start + p.1) ++ ". " ++ line p.2)

/-- `get_formatted_list` (lines 190-224). -/
def get_formatted_list (s : UserState) : String :=
  if s.todos.isEmpty then "📝 Список завдань порожній"
  else
    let a1 := s.todos.filter fun t =>
      t.sect == Section.zakupivlia && !t.crossed_out
    let a2 := s.todos.filter fun t =>
      t.sect == Section.harazh && !t.crossed_out
    let a3 := s.todos.filter fun t =>
      t.sect == Section.volynka && !t.crossed_out
    let comp := s.todos.filter fun t =>
      t.crossed_out || t.sect == Section.vykonano
    String.intercalate "\n"
      (renderBlock 1 (sectionTitle Section.zakupivlia) a1 (fun t => t.text)
        ++ renderBlock (1 + a1.length) (sectionTitle Section.harazh) a2
            (fun t => t.text)
        ++ renderBlock (1 + a1.length + a2.length)
            (sectionTitle Section.volynka) a3 (fun t => t.text)
        ++ renderBlock (1 + a1.length + a2.length + a3.length)
            (sectionTitle Section.vykonano) comp
            (fun t => strikethrough t.text))

/-- The fall-through of `_handle_number_commands` (lines 516-527): multi-line
input adds one task per non-empty stripped line, otherwise the whole text is
added; then the (new) list is rendered and sent. -/
def addPhase (s : UserState) (text : String) : UserState × Option String :=
  let lines := ((pySplitChar text '\n').map pyStrip).filter
    (fun l => !l.data.isEmpty)
  let s' :=
    if lines.length > 1 then
      lines.foldl (fun st line => (add_todo st line).2) s
    else (add_todo s text).2
  (s', some (get_formatted_list s'))

/-- `_handle_number_commands` (lines 470-527): the numeric-command
classifier.  Each Python `if ... : ...; return` block becomes a branch; the
second component is the reply sent (`none` when the code returns without
sending anything). -/
def handleNumberCommands (s : UserState) (text : String) :
    UserState × Option String :=
  if pyStartsWith text "-" && pyIsDigit (pyDrop text 1) then
    let r := remove_todo s (pyToNat (pyDrop text 1))
    if r.1 then (r.2, some (get_formatted_list r.2)) else (r.2, none)
  else if pyIsDigit text then
    let r := toggle_todo s (pyToNat text)
    if r.1 then (r.2, some (get_formatted_list r.2)) else (r.2, none)
  else if decide (1 < pyLen text) && pyIsDigit (pyDropLastChar text) then
    let num := pyToNat (pyDropLastChar text)
    let target : Option Section :=
      if pyLastChar text = 'г' then some Section.harazh
      else if pyLastChar text = 'в' then some Section.volynka
      else if pyLastChar text = 'з' then some Section.zakupivlia
      else none
    match target with
    | some sec =>
        let r := move_todo_to_section s num sec
        if r.1 then (r.2, some (get_formatted_list r.2)) else (r.2, none)
    | none => (s, none)
  else if pyContainsChar text '+' then
    let parts := pySplitChar text '+'
    if decide (parts.length = 2) && pyIsDigit (parts.getD 0 "")
        && pyIsDigit (parts.getD 1 "") then
      let r := merge_todos s (pyToNat (parts.getD 0 ""))
        (pyToNat (parts.getD 1 ""))
      if r.1 then (r.2, some (get_formatted_list r.2)) else (r.2, none)
    else addPhase s text
  else addPhase s text

/-- The states a single user's slice can reach through the public operations,
starting from the lazily created empty list (`next_id = 1`). -/
inductive Reachable : UserState → Prop where
  | init : Reachable ⟨[], 1, []⟩
  | add (s : UserState) (text : String) :
      Reachable s → Reachable (add_todo s text).2
  | remove (s : UserState) (n : Nat) :
      Reachable s → Reachable (remove_todo s n).2
  | toggle (s : UserState) (n : Nat) :
      Reachable s → Reachable (toggle_todo s n).2
  | move (s : UserState) (n : Nat) (target : Section) :
      Reachable s → Reachable (move_todo_to_section s n target).2
  | merge (s : UserState) (n1 n2 : Nat) :
      Reachable s → Reachable (merge_todos s n1 n2).2
  | clear (s : UserState) :
      Reachable s → Reachable (clear_todos s).2
  | restore (s : UserState) :
      Reachable s → Reachable (restore_backup s).2
  | contin (s : UserState) :
      Reachable s → Reachable (continue_list s).2

/-- The ids of a task list. -/
def itemIds (l : List TodoItem) : List Nat := l.map (fun t => t.item_id)

/-- All tasks a user currently owns: the live list and the backup slot. -/
def combined (s : UserState) : List TodoItem := s.todos ++ s.backup

/-- The completed-iff-Done property of a single task. -/
def InvItem (t : TodoItem) : Prop :=
  t.crossed_out = true ↔ t.sect = Section.vykonano

/-- The state invariant maintained by every v3 operation: every live or
backed-up task satisfies completed ⇔ Done, every such task's id is below
`next_id`, and no id occurs twice. -/
def Inv (s : UserState) : Prop :=
  (∀ t ∈ combined s, InvItem t)
  ∧ (∀ t ∈ combined s, t.item_id < s.next_id)
  ∧ (itemIds (combined s)).Nodup

/-- A numeric command (in the sense of `_handle_number_commands`) whose
display number(s) fail to resolve to a task in state `s`: the four command
shapes, each with the earlier branch guards negated as the code tests them,
and the relevant lookup(s) returning nothing. -/
@[reducible] def FailingNumericShape (s : UserState) (text : String) : Prop :=
  (pyStartsWith text "-" = true ∧ pyIsDigit (pyDrop text 1) = true
    ∧ lookupPair s (pyToNat (pyDrop text 1)) = none)
  ∨ ((pyStartsWith text "-" && pyIsDigit (pyDrop text 1)) = false
    ∧ pyIsDigit text = true
    ∧ lookupPair s (pyToNat text) = none)
  ∨ ((pyStartsWith text "-" && pyIsDigit (pyDrop text 1)) = false
    ∧ pyIsDigit text = false
    ∧ 1 < pyLen text ∧ pyIsDigit (pyDropLastChar text) = true
    ∧ (pyLastChar text = 'г' ∨ pyLastChar text = 'в' ∨ pyLastChar text = 'з')
    ∧ lookupPair s (pyToNat (pyDropLastChar text)) = none)
  ∨ ((pyStartsWith text "-" && pyIsDigit (pyDrop text 1)) = false
    ∧ pyIsDigit text = false
    ∧ (decide (1 < pyLen text) && pyIsDigit (pyDropLastChar text)) = false
    ∧ pyContainsChar text '+' = true
    ∧ (decide ((pySplitChar text '+').length = 2)
        && pyIsDigit ((pySplitChar text '+').getD 0 "")
        && pyIsDigit ((pySplitChar text '+').getD 1 "")) = true
    ∧ (lookupPair s (pyToNat ((pySplitChar text '+').getD 0 "")) = none
        ∨ lookupPair s (pyToNat ((pySplitChar text '+').getD 1 "")) = none))

/-- The v3 menu literals handled by `handle_message` (lines 437-465) before
`_handle_number_commands` is reached. -/
def menuLiterals : List String :=
  ["📋 Меню", "🔙 Назад", "📝 Список", "Список", "🆕 Новий",
   "новий список", "↩️ Відновити", "відновити", "🔄 Продовжити",
   "продовжити"]

/-- Input that matches no command shape at all — no menu literal, and every
branch guard of `_handle_number_commands` false.  (The third conjunct is
strictly wider than the claim's "digits followed by a section marker": the
code's third branch captures digits followed by an arbitrary character.) -/
@[reducible] def NotCommandShaped (text : String) : Prop :=
  text ∉ menuLiterals
  ∧ (pyStartsWith text "-" && pyIsDigit (pyDrop text 1)) = false
  ∧ pyIsDigit text = false
  ∧ (decide (1 < pyLen text) && pyIsDigit (pyDropLastChar text)) = false
  ∧ (decide ((pySplitChar text '+').length = 2)
      && pyIsDigit ((pySplitChar text '+').getD 0 "")
      && pyIsDigit ((pySplitChar text '+').getD 1 "")) = false

/-- The number of tasks the fall-through add phase creates from `text`. -/
def addedCount (text : String) : Nat :=
  let lines := ((pySplitChar text '\n').map pyStrip).filter
    (fun l => !l.data.isEmpty)
  if lines.length > 1 then lines.length else 1

end V3

/-!
### The v1 variant (`bot_github_production.py`, class `TodoBot`)

Tasks are dicts `{'id', 'text', 'section', 'crossed_out'}` with the section
stored as an index 0..3 (3 = `Виконано`); the per-user dict holds `todos`,
`next_id` and — once `create_new_list` ran — `backup_todos`.  The possible
absence of the `backup_todos` key is modelled by an `Option`. -/
namespace V1

/-- One task dict of the v1 variant. -/
structure Todo1 where
  id : Nat
  text : String
  sect : Nat
  crossed_out : Bool
deriving DecidableEq

/-- The per-user slice of `users_data`. -/
structure UserData where
  todos : List Todo1
  next_id : Nat
  backup : Option (List Todo1)
deriving DecidableEq

/-- The loop body of `add_todo_from_text` (lines 291-310): strip a `!!`/`!`
prefix to pick section 2/1, and create a task (consuming `next_id`) only
when a non-empty line remains (`if line:`). -/
def addLine (u : UserData) (line : String) : UserData :=
  let sect := if pyStartsWith line "!!" then 2
    else if pyStartsWith line "!" then 1 else 0
  let line' := if pyStartsWith line "!!" then pyStrip (pyDrop line 2)
    else if pyStartsWith line "!" then pyStrip (pyDrop line 1) else line
  if line'.data.isEmpty then u
  else { u with todos := u.todos ++ [⟨u.next_id, line', sect, false⟩],
                next_id := u.next_id + 1 }

/-- `add_todo_from_text` (lines 287-310): one task per non-empty stripped
line. -/
def add_todo_from_text (u : UserData) (text : String) : UserData :=
  let lines := ((pySplitChar text '\n').map pyStrip).filter
    (fun l => !l.data.isEmpty)
  lines.foldl addLine u

/-- `create_new_list` (lines 376-380): unconditionally back up the current
list (even when empty), empty it, and reset `next_id` to 1. -/
def create_new_list (u : UserData) : UserData :=
  { todos := [], next_id := 1, backup := some u.todos }

/-- `restore_last_list` (lines 382-388): if the backup key exists, copy it
back (even when empty) and, only when non-empty, recompute `next_id`;
the backup key itself is left in place. -/
def restore_last_list (u : UserData) : UserData :=
  match u.backup with
  | none => u
  | some b =>
      if b.isEmpty then { u with todos := b }
      else
        let nid := (b.map (fun t => t.id)).foldl max 0 + 1
        { u with todos := b, next_id := nid }

/-- `continue_list` (lines 390-392): drop every task with section index 3.
No backup is taken and nothing is returned. -/
def continue_list (u : UserData) : UserData :=
  { u with todos := u.todos.filter (fun t => t.sect != 3) }

end V1

/-! ### Supporting lemmas about the v3 display ordering -/

namespace V3

lemma pullOut2 {α : Type} (a : α) (F R : List α) :
    List.Perm (F ++ (a :: R)) (a :: (F ++ R)) := List.perm_middle

lemma pullOut3 {α : Type} (a : α) (F G R : List α) :
    List.Perm (F ++ (G ++ (a :: R))) (a :: (F ++ (G ++ R))) :=
  (List.Perm.append_left F (pullOut2 a G R)).trans List.perm_middle

lemma pullOut4 {α : Type} (a : α) (F G H R : List α) :
    List.Perm (F ++ (G ++ (H ++ (a :: R)))) (a :: (F ++ (G ++ (H ++ R)))) :=
  (List.Perm.append_left F (pullOut3 a G H R)).trans List.perm_middle

/-- The four bucket filters of the display order form a partition: every
task is either not crossed out and in one of the three active sections, or
crossed out / in виконано. -/
lemma bucket4_perm (l : List (Nat × TodoItem)) :
    List.Perm
      ((l.filter fun p => p.2.sect == Section.zakupivlia && !p.2.crossed_out)
      ++ ((l.filter fun p => p.2.sect == Section.harazh && !p.2.crossed_out)
      ++ ((l.filter fun p => p.2.sect == Section.volynka && !p.2.crossed_out)
      ++ (l.filter fun p => p.2.crossed_out || p.2.sect == Section.vykonano))))
      l := by
  induction l with
  | nil => rfl
  | cons x xs ih =>
    obtain ⟨i, tx, id, co, sec⟩ := x
    cases co <;> cases sec <;>
      simp only [List.filter_cons] <;>
      norm_num <;>
      first
        | exact ih
        | exact (pullOut2 _ _ _).trans (ih.cons _)
        | exact (pullOut3 _ _ _ _).trans (ih.cons _)
        | exact (pullOut4 _ _ _ _ _).trans (ih.cons _)

/-- The `ordered` list of `get_todo_by_display_number` is a permutation of
the (position-tagged) task list. -/
lemma orderedPairs_perm (l : List TodoItem) :
    List.Perm (orderedPairs l) l.enum := by
  unfold orderedPairs
  simpa [List.append_assoc] using bucket4_perm l.enum

lemma length_orderedPairs (l : List TodoItem) :
    (orderedPairs l).length = l.length :=
  (orderedPairs_perm l).length_eq.trans l.enum_length

lemma mem_orderedPairs {l : List TodoItem} {i : Nat} {t : TodoItem} :
    (i, t) ∈ orderedPairs l ↔ l[i]? = some t :=
  (orderedPairs_perm l).mem_iff.trans List.mk_mem_enum_iff_getElem?

lemma lookupPair_mem {s : UserState} {n : Nat} {p : Nat × TodoItem}
    (h : lookupPair s n = some p) : p ∈ orderedPairs s.todos := by
  unfold lookupPair at h
  split at h
  · exact List.getElem?_mem h
  · exact absurd h (by simp)

lemma lookupPair_todos {s : UserState} {n i : Nat} {t : TodoItem}
    (h : lookupPair s n = some (i, t)) : s.todos[i]? = some t :=
  mem_orderedPairs.mp (lookupPair_mem h)

lemma getElem?_isSome_iff {α : Type} (l : List α) (i : Nat) :
    l[i]?.isSome = true ↔ i < l.length := by
  rw [Option.isSome_iff_ne_none, ne_eq, List.getElem?_eq_none_iff]
  omega

lemma lookupPair_isSome (s : UserState) (n : Nat) :
    (lookupPair s n).isSome = true ↔ (1 ≤ n ∧ n ≤ s.todos.length) := by
  have hlen := length_orderedPairs s.todos
  unfold lookupPair
  split
  · next hc =>
      rw [getElem?_isSome_iff]
      omega
  · next hc =>
      simp only [Option.isSome_none, Bool.false_eq_true, false_iff]
      omega

/-- Replacing a position by the element already there is the identity. -/
lemma set_self_of_getElem? {α : Type} :
    ∀ (l : List α) (i : Nat) (a : α), l[i]? = some a → l.set i a = l
  | [], _, _, h => by simp at h
  | x :: xs, 0, a, h => by
      simp only [List.getElem?_cons_zero, Option.some.injEq] at h
      simp [h]
  | x :: xs, i + 1, a, h => by
      simp only [List.getElem?_cons_succ] at h
      simp [set_self_of_getElem? xs i a h]

/-- In a duplicate-free list, distinct positions hold distinct elements. -/
lemma nodup_getElem?_ne {α : Type} {L : List α} (h : L.Nodup) {a b : Nat}
    {x y : α} (ha : L[a]? = some x) (hb : L[b]? = some y) (hab : a ≠ b) :
    x ≠ y := by
  intro hxy
  obtain ⟨ha', hxa⟩ := List.getElem?_eq_some.mp ha
  obtain ⟨hb', hyb⟩ := List.getElem?_eq_some.mp hb
  have hget : L.get ⟨a, ha'⟩ = L.get ⟨b, hb'⟩ := by
    simp only [List.get_eq_getElem, hxa, hyb, hxy]
  have := List.nodup_iff_injective_get.mp h hget
  exact hab (congrArg Fin.val this)

lemma enumFrom_filter_map_snd {α : Type} (P : Nat × α → Bool) (q : α → Bool)
    (hP : ∀ i a, P (i, a) = q a) :
    ∀ (n : Nat) (l : List α),
      (((l.enumFrom n).filter P).map fun p => p.2) = l.filter q
  | _, [] => rfl
  | n, x :: xs => by
      rw [List.enumFrom_cons, List.filter_cons, List.filter_cons, hP]
      cases hq : q x <;>
        simp [hq, enumFrom_filter_map_snd P q hP (n + 1) xs]

/-- The renderer traverses exactly the tasks of the lookup order, in the
same order (`get_formatted_list` and `get_todo_by_display_number` use the
same four bucket filters). -/
lemma renderOrder_eq_map_snd (l : List TodoItem) :
    renderOrder l = (orderedPairs l).map fun p => p.2 := by
  unfold renderOrder orderedPairs
  simp only [List.map_append, List.enum]
  rw [enumFrom_filter_map_snd _
        (fun t => t.sect == Section.zakupivlia && !t.crossed_out)
        (fun _ _ => rfl),
      enumFrom_filter_map_snd _
        (fun t => t.sect == Section.harazh && !t.crossed_out)
        (fun _ _ => rfl),
      enumFrom_filter_map_snd _
        (fun t => t.sect == Section.volynka && !t.crossed_out)
        (fun _ _ => rfl),
      enumFrom_filter_map_snd _
        (fun t => t.crossed_out || t.sect == Section.vykonano)
        (fun _ _ => rfl)]

/-! ### Preservation of the state invariant by every v3 operation -/

lemma inv_of_subset {s s' : UserState} (h : Inv s)
    (hn : s.next_id ≤ s'.next_id)
    (hmem : ∀ t ∈ combined s', t ∈ combined s)
    (hnodup : (itemIds (combined s')).Nodup) : Inv s' :=
  ⟨fun t ht => h.1 t (hmem t ht),
   fun t ht => lt_of_lt_of_le (h.2.1 t (hmem t ht)) hn,
   hnodup⟩

lemma inv_of_sublist {s s' : UserState} (h : Inv s)
    (hn : s.next_id ≤ s'.next_id)
    (hsub : List.Sublist (combined s') (combined s)) : Inv s' :=
  inv_of_subset h hn (fun _ ht => hsub.subset ht)
    (List.Nodup.sublist (hsub.map _) h.2.2)

lemma addSection_ne_vykonano (text : String) :
    addSection text ≠ Section.vykonano := by
  unfold addSection
  split_ifs <;> simp

/-- A freshly added task satisfies the completed-iff-Done property: it is
not crossed out and its section is never виконано. -/
lemma InvItem_add (text : String) (id : Nat) :
    InvItem ⟨addText text, id, false, addSection text⟩ := by
  unfold InvItem
  constructor
  · intro hc
    simp at hc
  · intro hc
    exact absurd hc (addSection_ne_vykonano text)

lemma inv_add (s : UserState) (text : String) (h : Inv s) :
    Inv (add_todo s text).2 := by
  have hperm : List.Perm (combined (add_todo s text).2)
      ((⟨addText text, s.next_id, false, addSection text⟩ : TodoItem)
        :: combined s) := by
    unfold add_todo combined
    simp only [List.append_assoc]
    exact List.perm_middle
  refine ⟨?_, ?_, ?_⟩
  · intro t ht
    rcases List.mem_cons.mp (hperm.mem_iff.mp ht) with rfl | hmem
    · exact InvItem_add text s.next_id
    · exact h.1 t hmem
  · intro t ht
    rcases List.mem_cons.mp (hperm.mem_iff.mp ht) with rfl | hmem
    · simp [add_todo]
    · have := h.2.1 t hmem
      simp only [add_todo]
      omega
  · have hmap := hperm.map (fun t => t.item_id)
    refine (hmap.nodup_iff).mpr (List.nodup_cons.mpr ⟨?_, h.2.2⟩)
    intro hmem
    obtain ⟨u, hu, hid⟩ := List.mem_map.mp hmem
    exact absurd hid (Nat.ne_of_gt (h.2.1 u hu)).symm

lemma InvItem_toggleItem (t : TodoItem) : InvItem (toggleItem t) := by
  obtain ⟨tx, id, co, sec⟩ := t
  cases co <;> simp [toggleItem, InvItem]

lemma inv_set_item {s : UserState} (h : Inv s) {i : Nat} {t t' : TodoItem}
    (hget : s.todos[i]? = some t) (hid : t'.item_id = t.item_id)
    (hitem : InvItem t') : Inv { s with todos := s.todos.set i t' } := by
  have htmem : t ∈ combined s :=
    List.mem_append_left _ (List.getElem?_mem hget)
  have hids : itemIds (s.todos.set i t') = itemIds s.todos := by
    unfold itemIds
    rw [List.map_set, hid,
      set_self_of_getElem? _ _ _ (by rw [List.getElem?_map, hget]; rfl)]
  refine ⟨?_, ?_, ?_⟩
  · intro u hu
    rcases List.mem_append.mp hu with hu | hu
    · rcases List.mem_or_eq_of_mem_set hu with hu | rfl
      · exact h.1 u (List.mem_append_left _ hu)
      · exact hitem
    · exact h.1 u (List.mem_append_right _ hu)
  · intro u hu
    rcases List.mem_append.mp hu with hu | hu
    · rcases List.mem_or_eq_of_mem_set hu with hu | rfl
      · exact h.2.1 u (List.mem_append_left _ hu)
      · exact hid ▸ h.2.1 t htmem
    · exact h.2.1 u (List.mem_append_right _ hu)
  · have : itemIds (combined { s with todos := s.todos.set i t' })
        = itemIds (combined s) := by
      unfold combined itemIds at *
      rw [List.map_append, List.map_append]
      rw [show (s.todos.set i t').map (fun t => t.item_id)
            = s.todos.map (fun t => t.item_id) from hids]
    rw [this]
    exact h.2.2

lemma inv_remove (s : UserState) (n : Nat) (h : Inv s) :
    Inv (remove_todo s n).2 := by
  unfold remove_todo
  rcases hl : lookupPair s n with _ | ⟨i, t⟩
  · simpa using h
  · simp only
    exact inv_of_sublist h (Nat.le_refl _)
      (List.Sublist.append_right (s.todos.eraseIdx_sublist i) _)

lemma inv_toggle (s : UserState) (n : Nat) (h : Inv s) :
    Inv (toggle_todo s n).2 := by
  unfold toggle_todo
  rcases hl : lookupPair s n with _ | ⟨i, t⟩
  · simpa using h
  · simp only
    exact inv_set_item h (lookupPair_todos hl) rfl (InvItem_toggleItem t)

lemma inv_move (s : UserState) (n : Nat) (target : Section) (h : Inv s) :
    Inv (move_todo_to_section s n target).2 := by
  unfold move_todo_to_section
  rcases hl : lookupPair s n with _ | ⟨i, t⟩
  · simpa using h
  · simp only
    refine inv_set_item h (lookupPair_todos hl) rfl ?_
    unfold InvItem
    simp [beq_iff_eq]

lemma inv_merge (s : UserState) (n1 n2 : Nat) (h : Inv s) :
    Inv (merge_todos s n1 n2).2 := by
  unfold merge_todos
  rcases h1 : lookupPair s n1 with _ | ⟨i, t1⟩
  · simpa using h
  rcases h2 : lookupPair s n2 with _ | ⟨j, t2⟩
  · simpa using h
  simp only
  split
  · next hij =>
    have ht1 : InvItem t1 :=
      h.1 t1 (List.mem_append_left _ (List.getElem?_mem (lookupPair_todos h1)))
    have ht1' : InvItem ⟨t1.text ++ " " ++ t2.text, t1.item_id,
        t1.crossed_out, t1.sect⟩ := ht1
    have hid' : (⟨t1.text ++ " " ++ t2.text, t1.item_id, t1.crossed_out,
        t1.sect⟩ : TodoItem).item_id = t1.item_id := rfl
    have hmid := inv_set_item h (lookupPair_todos h1) hid' ht1'
    exact inv_of_sublist hmid (Nat.le_refl _)
      (List.Sublist.append_right (List.eraseIdx_sublist _ j) _)
  · next hij => exact h

lemma inv_clear (s : UserState) (h : Inv s) : Inv (clear_todos s).2 := by
  unfold clear_todos
  dsimp only
  split
  · exact inv_of_sublist h (Nat.le_refl _)
      (by unfold combined; simp)
  · exact inv_of_sublist h (Nat.le_refl _)
      (by unfold combined; simp)

lemma inv_restore (s : UserState) (h : Inv s) : Inv (restore_backup s).2 := by
  unfold restore_backup
  split
  · exact h
  · exact inv_of_sublist h (Nat.le_refl _)
      (by unfold combined; simp)

/-- The two filters of `continue_list` are complementary. -/
lemma continue_pred_compl :
    (fun t : TodoItem => t.crossed_out || t.sect == Section.vykonano)
      = (fun t => !(!t.crossed_out && t.sect != Section.vykonano)) := by
  funext t
  obtain ⟨tx, id, co, sec⟩ := t
  cases co <;> cases sec <;> rfl

lemma continue_partition (l : List TodoItem) :
    List.Perm
      ((l.filter fun t => !t.crossed_out && t.sect != Section.vykonano)
        ++ (l.filter fun t => t.crossed_out || t.sect == Section.vykonano))
      l := by
  rw [continue_pred_compl]
  exact List.filter_append_perm _ l

lemma inv_contin (s : UserState) (h : Inv s) : Inv (continue_list s).2 := by
  unfold continue_list
  dsimp only
  split
  · exact h
  · simp only
    refine inv_of_subset h (Nat.le_refl _) ?_ ?_
    · intro t ht
      have : t ∈ s.todos := (continue_partition s.todos).mem_iff.mp ht
      exact List.mem_append_left _ this
    · have hperm := (continue_partition s.todos).map (fun t => t.item_id)
      refine hperm.nodup_iff.mpr ?_
      have := h.2.2
      unfold combined itemIds at this
      rw [List.map_append] at this
      exact this.of_append_left

/-- Every reachable state satisfies the invariant. -/
lemma reachable_inv {s : UserState} (h : Reachable s) : Inv s := by
  induction h with
  | init =>
      refine ⟨?_, ?_, ?_⟩ <;> simp [combined, itemIds]
  | add s text _ ih => exact inv_add s text ih
  | remove s n _ ih => exact inv_remove s n ih
  | toggle s n _ ih => exact inv_toggle s n ih
  | move s n target _ ih => exact inv_move s n target ih
  | merge s n1 n2 _ ih => exact inv_merge s n1 n2 ih
  | clear s _ ih => exact inv_clear s ih
  | restore s _ ih => exact inv_restore s ih
  | contin s _ ih => exact inv_contin s ih

/-! ### Positions, ids and failure results of the lookup-based operations -/

lemma lookupPair_getElem {s : UserState} {n : Nat} {p : Nat × TodoItem}
    (h : lookupPair s n = some p) :
    (orderedPairs s.todos)[n - 1]? = some p ∧ 1 ≤ n ∧ n ≤ s.todos.length := by
  have hlen := length_orderedPairs s.todos
  unfold lookupPair at h
  split at h
  · next hc => exact ⟨h, by omega, by omega⟩
  · cases h

/-- In an invariant state the ids along the display order are distinct. -/
lemma orderedPairs_ids_nodup {s : UserState} (h : Inv s) :
    ((orderedPairs s.todos).map fun p => p.2.item_id).Nodup := by
  have h1 : (s.todos.map fun t => t.item_id).Nodup := by
    have h2 := h.2.2
    unfold combined itemIds at h2
    rw [List.map_append] at h2
    exact h2.of_append_left
  have hperm := (orderedPairs_perm s.todos).map (fun p => p.2.item_id)
  have he : ((s.todos.enum).map fun p => p.2.item_id)
      = s.todos.map fun t => t.item_id := by
    conv_rhs => rw [← List.enum_map_snd s.todos]
    rw [List.map_map]
    rfl
  rw [he] at hperm
  exact hperm.nodup_iff.mpr h1

lemma remove_todo_fail {s : UserState} {n : Nat}
    (h : lookupPair s n = none) : remove_todo s n = (false, s) := by
  unfold remove_todo
  rw [h]

lemma toggle_todo_fail {s : UserState} {n : Nat}
    (h : lookupPair s n = none) : toggle_todo s n = (false, s) := by
  unfold toggle_todo
  rw [h]

lemma move_todo_fail {s : UserState} {n : Nat} {target : Section}
    (h : lookupPair s n = none) :
    move_todo_to_section s n target = (false, s) := by
  unfold move_todo_to_section
  rw [h]

lemma merge_todos_fail_left {s : UserState} {n1 n2 : Nat}
    (h : lookupPair s n1 = none) : merge_todos s n1 n2 = (false, s) := by
  unfold merge_todos
  rw [h]

lemma merge_todos_fail_right {s : UserState} {n1 n2 : Nat}
    (h : lookupPair s n2 = none) : merge_todos s n1 n2 = (false, s) := by
  unfold merge_todos
  rw [h]
  rcases lookupPair s n1 with _ | ⟨i, t⟩ <;> rfl

/-- Every `(number, task)` pair the renderer prints is confirmed by
`get_todo_by_display_number` at that same number. -/
lemma renderEntries_lookup {s : UserState} {k : Nat} {t : TodoItem}
    (hmem : (k, t) ∈ renderEntries s) :
    get_todo_by_display_number s k = some t := by
  unfold renderEntries at hmem
  obtain ⟨⟨i, u⟩, hiu, heq⟩ := List.mem_map.mp hmem
  cases heq
  have hget : (renderOrder s.todos)[i]? = some u :=
    List.mk_mem_enum_iff_getElem?.mp hiu
  rw [renderOrder_eq_map_snd, List.getElem?_map] at hget
  obtain ⟨p, hp, hpu⟩ := Option.map_eq_some'.mp hget
  have hlen : i < (orderedPairs s.todos).length :=
    (List.getElem?_eq_some.mp hp).1
  unfold get_todo_by_display_number lookupPair
  rw [if_pos (by constructor <;> omega)]
  simp only [Nat.add_sub_cancel, hp, Option.map_some']
  exact congrArg some hpu

end V3

/-! ### Shared concrete states -/

/-- The state after adding the single task `"a"` to a fresh user. -/
lemma reachable_sample :
    V3.Reachable ⟨[⟨"a", 1, false, V3.Section.zakupivlia⟩], 2, []⟩ := by
  have h := V3.Reachable.add _ "a" V3.Reachable.init
  have he : (V3.add_todo ⟨[], 1, []⟩ "a").2
      = (⟨[⟨"a", 1, false, V3.Section.zakupivlia⟩], 2, []⟩ : V3.UserState) := by
    decide
  rw [he] at h
  exact h

/-! ### The claims -/

/-- C2 (amended, v3): `clear_todos` returns the number of live tasks, empties
the task list, keeps `next_id`, and replaces the backup with the old task
list exactly when that list was non-empty (otherwise the old backup is
kept).  The original claim also covers the v1 `create_new_list`, which
violates it (see the counterexample). -/
theorem c2_clear_spec (s : V3.UserState) :
    V3.clear_todos s
      = (s.todos.length,
         ⟨[], s.next_id, if s.todos.isEmpty then s.backup else s.todos⟩)
    ∧ (V3.clear_todos s).2.next_id = s.next_id := by
  cases h : s.todos with
  | nil => constructor <;> simp [V3.clear_todos, h]
  | cons a l => constructor <;> simp [V3.clear_todos, h]

/-- C2 (counterexample): the claim says clear() changes nothing but `tasks`
and `backup` — "in particular nextId is unchanged".  The v1 implementation
`create_new_list` (cited by the claim) resets `next_id` to 1: from
`next_id = 5` it does not stay 5. -/
theorem c2_counterexample :
    (V1.create_new_list ⟨[⟨1, "a", 0, false⟩], 5, none⟩).next_id = 1
    ∧ ¬ (V1.create_new_list ⟨[⟨1, "a", 0, false⟩], 5, none⟩).next_id = 5 := by
  constructor <;> decide

/-- C3 (amended, v3): in every reachable v3 state, `next_id` strictly
exceeds every id in the live list and in the backup slot, and no id occurs
twice.  The original claim also covers v1, where `create_new_list` resets
the allocator below the backed-up ids (see the counterexample). -/
theorem c3_ids_fresh (s : V3.UserState) (t : V3.TodoItem)
    (h : V3.Reachable s) :
    (t ∈ s.todos → t.item_id < s.next_id)
    ∧ (t ∈ s.backup → t.item_id < s.next_id)
    ∧ (V3.itemIds (s.todos ++ s.backup)).Nodup := by
  have hi := V3.reachable_inv h
  exact ⟨fun ht => hi.2.1 t (List.mem_append_left _ ht),
         fun ht => hi.2.1 t (List.mem_append_right _ ht),
         hi.2.2⟩

theorem c3_witness :
    V3.Reachable (⟨[⟨"a", 1, false, V3.Section.zakupivlia⟩], 2, []⟩ :
      V3.UserState)
    ∧ (((⟨"a", 1, false, V3.Section.zakupivlia⟩ : V3.TodoItem)
          ∈ (⟨[⟨"a", 1, false, V3.Section.zakupivlia⟩], 2, []⟩ :
              V3.UserState).todos → (1 : Nat) < 2)
        ∧ ((⟨"a", 1, false, V3.Section.zakupivlia⟩ : V3.TodoItem)
          ∈ (⟨[⟨"a", 1, false, V3.Section.zakupivlia⟩], 2, []⟩ :
              V3.UserState).backup → (1 : Nat) < 2)
        ∧ (V3.itemIds ((⟨[⟨"a", 1, false, V3.Section.zakupivlia⟩], 2, []⟩ :
              V3.UserState).todos
            ++ (⟨[⟨"a", 1, false, V3.Section.zakupivlia⟩], 2, []⟩ :
              V3.UserState).backup)).Nodup) :=
  ⟨reachable_sample, c3_ids_fresh _ _ reachable_sample⟩

/-- C3 (counterexample): after `add "a"` then `create_new_list`, the v1
state has `next_id = 1` while the backup holds the task with id 1 — the
allocator no longer exceeds every assigned id, so id 1 can be issued
again. -/
theorem c3_counterexample :
    (V1.create_new_list (V1.add_todo_from_text ⟨[], 1, none⟩ "a")).next_id = 1
    ∧ ∃ t ∈ (V1.create_new_list
        (V1.add_todo_from_text ⟨[], 1, none⟩ "a")).backup.getD [],
        ¬ t.id < (V1.create_new_list
          (V1.add_todo_from_text ⟨[], 1, none⟩ "a")).next_id := by
  constructor <;> decide

/-- C4 (amended, v3): `restore_backup` replaces the task list with a copy of
the backup, clears the backup slot and returns the count, and is a complete
no-op on an empty backup — but, contrary to the original claim, it does NOT
recompute `next_id`: `next_id` is left exactly as it was. -/
theorem c4_restore_spec (s : V3.UserState) :
    (s.backup ≠ [] →
      V3.restore_backup s = (s.backup.length, ⟨s.backup, s.next_id, []⟩))
    ∧ (s.backup = [] → V3.restore_backup s = (0, s))
    ∧ (V3.restore_backup s).2.next_id = s.next_id := by
  refine ⟨?_, ?_, ?_⟩
  · intro h
    unfold V3.restore_backup
    rw [if_neg (by simpa [List.isEmpty_iff] using h)]
  · intro h
    unfold V3.restore_backup
    rw [if_pos (by simpa [List.isEmpty_iff] using h)]
  · unfold V3.restore_backup
    split <;> rfl

theorem c4_witness :
    ((⟨[], 7, [⟨"x", 3, false, V3.Section.zakupivlia⟩]⟩ :
        V3.UserState).backup ≠ [])
    ∧ V3.restore_backup ⟨[], 7, [⟨"x", 3, false, V3.Section.zakupivlia⟩]⟩
        = (1, ⟨[⟨"x", 3, false, V3.Section.zakupivlia⟩], 7, []⟩) :=
  ⟨by decide, (c4_restore_spec _).1 (by decide)⟩

/-- C4 (counterexample): a reachable state (add "a", add "b", delete 2,
clear) whose backup holds only id 1 while `next_id = 3`.  The claim wants
`restore_backup` to recompute `next_id` as `max(ids) + 1 = 2`; the v3 code
leaves it at 3. -/
theorem c4_counterexample :
    V3.Reachable (⟨[], 3, [⟨"a", 1, false, V3.Section.zakupivlia⟩]⟩ :
      V3.UserState)
    ∧ (V3.restore_backup
        ⟨[], 3, [⟨"a", 1, false, V3.Section.zakupivlia⟩]⟩).2.next_id = 3
    ∧ ¬ (V3.restore_backup
        ⟨[], 3, [⟨"a", 1, false, V3.Section.zakupivlia⟩]⟩).2.next_id
          = 1 + 1 := by
  refine ⟨?_, by decide, by decide⟩
  have h := V3.Reachable.clear _ (V3.Reachable.remove _ 2
    (V3.Reachable.add _ "b" (V3.Reachable.add _ "a" V3.Reachable.init)))
  have he : (V3.clear_todos (V3.remove_todo
        (V3.add_todo (V3.add_todo ⟨[], 1, []⟩ "a").2 "b").2 2).2).2
      = (⟨[], 3, [⟨"a", 1, false, V3.Section.zakupivlia⟩]⟩ : V3.UserState) := by
    decide
  rw [he] at h
  exact h

/-- C7 (confirmed): in every reachable v3 state every live task satisfies
`crossed_out = true` iff its section is виконано, and the per-task toggle
mutation is an involution on the completed flag. -/
theorem c7_completed_iff_done (s : V3.UserState) (t : V3.TodoItem)
    (h : V3.Reachable s) :
    (t ∈ s.todos → (t.crossed_out = true ↔ t.sect = V3.Section.vykonano))
    ∧ (V3.toggleItem (V3.toggleItem t)).crossed_out = t.crossed_out := by
  constructor
  · intro ht
    exact (V3.reachable_inv h).1 t (List.mem_append_left _ ht)
  · obtain ⟨tx, id, co, sec⟩ := t
    cases co <;> rfl

/-- Every task failing the completed-predicate passes the kept-predicate of
`continue_list`, and conversely. -/
lemma continue_kept_of_not_done {t : V3.TodoItem}
    (h : ¬ (t.crossed_out || t.sect == V3.Section.vykonano) = true) :
    (!t.crossed_out && t.sect != V3.Section.vykonano) = true := by
  obtain ⟨tx, id, co, sec⟩ := t
  cases co <;> cases sec <;> simp_all

/-- Full effect of `continue_list` in claim shape. -/
lemma continue_list_eq (s : V3.UserState) :
    V3.continue_list s
      = ((s.todos.filter fun t =>
            t.crossed_out || t.sect == V3.Section.vykonano).length,
         ⟨s.todos.filter fun t =>
            !t.crossed_out && t.sect != V3.Section.vykonano,
          s.next_id,
          if (s.todos.filter fun t =>
              t.crossed_out || t.sect == V3.Section.vykonano).isEmpty
          then s.backup
          else s.todos.filter fun t =>
            t.crossed_out || t.sect == V3.Section.vykonano⟩) := by
  unfold V3.continue_list
  dsimp only
  split
  · next hemp =>
      have hc : s.todos.filter
          (fun t => t.crossed_out || t.sect == V3.Section.vykonano) = [] := by
        simpa [List.isEmpty_iff] using hemp
      have hk : s.todos.filter
          (fun t => !t.crossed_out && t.sect != V3.Section.vykonano)
            = s.todos := by
        rw [List.filter_eq_self]
        intro t ht
        exact continue_kept_of_not_done (List.filter_eq_nil_iff.mp hc t ht)
      rw [hc, hk]
      rfl
  · next hemp =>
      rfl

/-- C5 (amended, v3): `continue_list` removes exactly the tasks satisfying
`crossed_out or section == виконано` (under the completed⇔Done invariant:
exactly the Done-section tasks), keeps the others in their original
relative order, returns the count removed, leaves `next_id` alone, and
replaces the backup with the removed tasks — but only when at least one
task was removed; with nothing to remove the whole state (including any
pre-existing backup) is untouched.  The original claim's unconditional
"stores the removed tasks as the new backup" fails on the v1 variant,
whose `continue_list` keeps no backup at all (see the counterexample). -/
theorem c5_continue_spec (s : V3.UserState) :
    ((V3.continue_list s).1
        = (s.todos.filter fun t =>
            t.crossed_out || t.sect == V3.Section.vykonano).length)
    ∧ ((V3.continue_list s).2.todos
        = s.todos.filter fun t =>
            !t.crossed_out && t.sect != V3.Section.vykonano)
    ∧ ((V3.continue_list s).2.next_id = s.next_id)
    ∧ ((s.todos.filter fun t =>
          t.crossed_out || t.sect == V3.Section.vykonano) ≠ [] →
        (V3.continue_list s).2.backup
          = s.todos.filter fun t =>
              t.crossed_out || t.sect == V3.Section.vykonano)
    ∧ ((s.todos.filter fun t =>
          t.crossed_out || t.sect == V3.Section.vykonano) = [] →
        (V3.continue_list s).2 = s)
    ∧ ((∀ t ∈ s.todos,
          t.crossed_out = true ↔ t.sect = V3.Section.vykonano) →
        (V3.continue_list s).2.todos
            = s.todos.filter (fun t => t.sect != V3.Section.vykonano)
        ∧ (V3.continue_list s).1
            = (s.todos.filter fun t => t.sect == V3.Section.vykonano).length) := by
  rw [continue_list_eq]
  refine ⟨rfl, rfl, rfl, ?_, ?_, ?_⟩
  · intro h
    simp only
    rw [if_neg (by simpa [List.isEmpty_iff] using h)]
  · intro h
    simp only
    rw [h]
    have hk : s.todos.filter
        (fun t => !t.crossed_out && t.sect != V3.Section.vykonano)
          = s.todos := by
      rw [List.filter_eq_self]
      intro t ht
      exact continue_kept_of_not_done (List.filter_eq_nil_iff.mp h t ht)
    rw [hk]
    rfl
  · intro hinv
    constructor
    · simp only
      apply List.filter_congr
      intro t ht
      have hi := hinv t ht
      obtain ⟨tx, id, co, sec⟩ := t
      cases co <;> cases sec <;> simp_all
    · simp only
      congr 1
      apply List.filter_congr
      intro t ht
      have hi := hinv t ht
      obtain ⟨tx, id, co, sec⟩ := t
      cases co <;> cases sec <;> simp_all

theorem c5_witness :
    (∀ t ∈ (⟨[⟨"a", 1, false, V3.Section.zakupivlia⟩,
              ⟨"b", 2, true, V3.Section.vykonano⟩], 3, []⟩ :
        V3.UserState).todos,
        t.crossed_out = true ↔ t.sect = V3.Section.vykonano)
    ∧ ((V3.continue_list ⟨[⟨"a", 1, false, V3.Section.zakupivlia⟩,
          ⟨"b", 2, true, V3.Section.vykonano⟩], 3, []⟩).2.todos
        = (⟨[⟨"a", 1, false, V3.Section.zakupivlia⟩,
            ⟨"b", 2, true, V3.Section.vykonano⟩], 3, []⟩ :
            V3.UserState).todos.filter
              (fun t => t.sect != V3.Section.vykonano)
      ∧ (V3.continue_list ⟨[⟨"a", 1, false, V3.Section.zakupivlia⟩,
          ⟨"b", 2, true, V3.Section.vykonano⟩], 3, []⟩).1
        = ((⟨[⟨"a", 1, false, V3.Section.zakupivlia⟩,
            ⟨"b", 2, true, V3.Section.vykonano⟩], 3, []⟩ :
            V3.UserState).todos.filter
              (fun t => t.sect == V3.Section.vykonano)).length) :=
  ⟨by decide, (c5_continue_spec _).2.2.2.2.2 (by decide)⟩

/-- C5 (counterexample): the claim says the removed Done tasks become the
new backup.  The v1 `continue_list` (cited by the claim) silently drops
them: starting with one Done task and no backup, the task disappears and
the backup slot still holds nothing. -/
theorem c5_counterexample :
    V1.continue_list ⟨[⟨1, "a", 3, true⟩], 2, none⟩
      = (⟨[], 2, none⟩ : V1.UserData)
    ∧ ¬ (V1.continue_list ⟨[⟨1, "a", 3, true⟩], 2, none⟩).backup
        = some [⟨1, "a", 3, true⟩] := by
  constructor <;> decide

theorem c7_witness :
    V3.Reachable (⟨[⟨"a", 1, false, V3.Section.zakupivlia⟩], 2, []⟩ :
      V3.UserState)
    ∧ (((⟨"a", 1, false, V3.Section.zakupivlia⟩ : V3.TodoItem)
          ∈ (⟨[⟨"a", 1, false, V3.Section.zakupivlia⟩], 2, []⟩ :
              V3.UserState).todos →
        ((false : Bool) = true ↔ V3.Section.zakupivlia = V3.Section.vykonano))
      ∧ (V3.toggleItem (V3.toggleItem
          ⟨"a", 1, false, V3.Section.zakupivlia⟩)).crossed_out = false) :=
  ⟨reachable_sample, c7_completed_iff_done _ _ reachable_sample⟩

/-- C9 (confirmed): when the two display numbers resolve to distinct tasks
(distinct positions — Python object identity), `merge_todos` returns true,
rewrites the first task's text to `text1 ++ " " ++ text2` keeping its id,
completed flag and section, removes the second task (total count drops by
exactly one) and touches nothing else; it returns false and changes nothing
when either lookup fails or both numbers resolve to the same task. -/
theorem c9_merge_spec (s : V3.UserState) (n1 n2 i1 i2 : Nat)
    (t1 t2 : V3.TodoItem) :
    (V3.lookupPair s n1 = some (i1, t1) →
      V3.lookupPair s n2 = some (i2, t2) → i1 ≠ i2 →
      V3.merge_todos s n1 n2
        = (true, ⟨(s.todos.set i1 ⟨t1.text ++ " " ++ t2.text, t1.item_id,
            t1.crossed_out, t1.sect⟩).eraseIdx i2, s.next_id, s.backup⟩)
      ∧ (V3.merge_todos s n1 n2).2.todos.length + 1 = s.todos.length)
    ∧ (V3.lookupPair s n1 = none → V3.merge_todos s n1 n2 = (false, s))
    ∧ (V3.lookupPair s n2 = none → V3.merge_todos s n1 n2 = (false, s))
    ∧ (V3.lookupPair s n1 = some (i1, t1) →
        V3.lookupPair s n2 = some (i1, t1) →
        V3.merge_todos s n1 n2 = (false, s)) := by
  refine ⟨?_, ?_, ?_, ?_⟩
  · intro h1 h2 hij
    have heq : V3.merge_todos s n1 n2
        = (true, ⟨(s.todos.set i1 ⟨t1.text ++ " " ++ t2.text, t1.item_id,
            t1.crossed_out, t1.sect⟩).eraseIdx i2, s.next_id, s.backup⟩) := by
      unfold V3.merge_todos
      rw [h1, h2]
      dsimp only
      rw [if_pos hij]
    refine ⟨heq, ?_⟩
    rw [heq]
    have hj : i2 < s.todos.length :=
      (List.getElem?_eq_some.mp (V3.lookupPair_todos h2)).1
    have hj' : i2 < (s.todos.set i1 (⟨t1.text ++ " " ++ t2.text, t1.item_id,
        t1.crossed_out, t1.sect⟩ : V3.TodoItem)).length := by
      rw [List.length_set]
      exact hj
    simp only [List.length_eraseIdx_of_lt hj', List.length_set]
    omega
  · exact fun h => V3.merge_todos_fail_left h
  · exact fun h => V3.merge_todos_fail_right h
  · intro h1 h2
    unfold V3.merge_todos
    rw [h1, h2]
    dsimp only
    rw [if_neg (by simp)]

theorem c9_witness :
    V3.lookupPair ⟨[⟨"a", 1, false, V3.Section.zakupivlia⟩,
        ⟨"b", 2, false, V3.Section.zakupivlia⟩], 3, []⟩ 1
      = some (0, ⟨"a", 1, false, V3.Section.zakupivlia⟩)
    ∧ V3.lookupPair ⟨[⟨"a", 1, false, V3.Section.zakupivlia⟩,
        ⟨"b", 2, false, V3.Section.zakupivlia⟩], 3, []⟩ 2
      = some (1, ⟨"b", 2, false, V3.Section.zakupivlia⟩)
    ∧ (0 : Nat) ≠ 1
    ∧ (V3.merge_todos ⟨[⟨"a", 1, false, V3.Section.zakupivlia⟩,
          ⟨"b", 2, false, V3.Section.zakupivlia⟩], 3, []⟩ 1 2
        = (true, ⟨(([⟨"a", 1, false, V3.Section.zakupivlia⟩,
            ⟨"b", 2, false, V3.Section.zakupivlia⟩] :
              List V3.TodoItem).set 0
            ⟨"a" ++ " " ++ "b", 1, false, V3.Section.zakupivlia⟩).eraseIdx 1,
            3, []⟩)
      ∧ (V3.merge_todos ⟨[⟨"a", 1, false, V3.Section.zakupivlia⟩,
          ⟨"b", 2, false, V3.Section.zakupivlia⟩], 3, []⟩ 1 2).2.todos.length
          + 1 = 2) :=
  ⟨by decide, by decide, by decide,
   (c9_merge_spec ⟨[⟨"a", 1, false, V3.Section.zakupivlia⟩,
        ⟨"b", 2, false, V3.Section.zakupivlia⟩], 3, []⟩ 1 2 0 1
      ⟨"a", 1, false, V3.Section.zakupivlia⟩
      ⟨"b", 2, false, V3.Section.zakupivlia⟩).1
     (by decide) (by decide) (by decide)⟩

/-- C8 (confirmed): in every reachable v3 state, a display number resolves
to a task exactly when it lies in `[1, count]`; lookups are pure functions
of the state (two lookups without an intervening mutation agree
definitionally); distinct numbers resolve to distinct tasks; and every
`(number, task)` pair printed by the renderer is returned by
`get_todo_by_display_number` at that same number. -/
theorem c8_display_bijection (s : V3.UserState) (h : V3.Reachable s)
    (n m k : Nat) (t t' : V3.TodoItem) :
    ((V3.get_todo_by_display_number s n).isSome = true
        ↔ (1 ≤ n ∧ n ≤ s.todos.length))
    ∧ (V3.get_todo_by_display_number s n = V3.get_todo_by_display_number s n)
    ∧ (V3.get_todo_by_display_number s n = some t →
        V3.get_todo_by_display_number s m = some t' → n ≠ m → t ≠ t')
    ∧ ((k, t) ∈ V3.renderEntries s →
        V3.get_todo_by_display_number s k = some t) := by
  refine ⟨?_, rfl, ?_, ?_⟩
  · unfold V3.get_todo_by_display_number
    rw [Option.isSome_map']
    exact V3.lookupPair_isSome s n
  · intro hn hm hnm
    unfold V3.get_todo_by_display_number at hn hm
    obtain ⟨p1, hp1, hp1t⟩ := Option.map_eq_some'.mp hn
    obtain ⟨p2, hp2, hp2t⟩ := Option.map_eq_some'.mp hm
    obtain ⟨hg1, hn1, _⟩ := V3.lookupPair_getElem hp1
    obtain ⟨hg2, hm1, _⟩ := V3.lookupPair_getElem hp2
    have hnodup := V3.orderedPairs_ids_nodup (V3.reachable_inv h)
    have hne : p1.2.item_id ≠ p2.2.item_id := by
      refine V3.nodup_getElem?_ne hnodup ?_ ?_ (a := n - 1) (b := m - 1) ?_
      · rw [List.getElem?_map, hg1]
        rfl
      · rw [List.getElem?_map, hg2]
        rfl
      · omega
    intro hteq
    exact hne (by rw [hp1t, hp2t, hteq])
  · exact fun hmem => V3.renderEntries_lookup hmem

theorem c8_witness :
    V3.Reachable (⟨[⟨"a", 1, false, V3.Section.zakupivlia⟩], 2, []⟩ :
      V3.UserState)
    ∧ (((V3.get_todo_by_display_number
          ⟨[⟨"a", 1, false, V3.Section.zakupivlia⟩], 2, []⟩ 1).isSome = true
        ↔ (1 ≤ 1 ∧ 1 ≤ 1))
      ∧ (V3.get_todo_by_display_number
            ⟨[⟨"a", 1, false, V3.Section.zakupivlia⟩], 2, []⟩ 1
          = V3.get_todo_by_display_number
            ⟨[⟨"a", 1, false, V3.Section.zakupivlia⟩], 2, []⟩ 1)
      ∧ (V3.get_todo_by_display_number
            ⟨[⟨"a", 1, false, V3.Section.zakupivlia⟩], 2, []⟩ 1
          = some ⟨"a", 1, false, V3.Section.zakupivlia⟩ →
         V3.get_todo_by_display_number
            ⟨[⟨"a", 1, false, V3.Section.zakupivlia⟩], 2, []⟩ 2
          = some ⟨"a", 1, false, V3.Section.zakupivlia⟩ →
         (1 : Nat) ≠ 2 →
         (⟨"a", 1, false, V3.Section.zakupivlia⟩ : V3.TodoItem)
          ≠ ⟨"a", 1, false, V3.Section.zakupivlia⟩)
      ∧ ((1, ⟨"a", 1, false, V3.Section.zakupivlia⟩)
            ∈ V3.renderEntries ⟨[⟨"a", 1, false, V3.Section.zakupivlia⟩], 2, []⟩ →
         V3.get_todo_by_display_number
            ⟨[⟨"a", 1, false, V3.Section.zakupivlia⟩], 2, []⟩ 1
          = some ⟨"a", 1, false, V3.Section.zakupivlia⟩)) :=
  ⟨reachable_sample,
   c8_display_bijection _ reachable_sample 1 2 1 _ _⟩

/-- C1 (amended, v3): a numeric command whose display number(s) fail to
resolve is a strict no-op of `_handle_number_commands`: the state is
unchanged (in particular the command text is never added as a task) and —
contrary to the original claim — NO reply at all is sent: the code returns
without rendering the list. -/
theorem c1_failing_numeric_silent (s : V3.UserState) (text : String)
    (h : V3.FailingNumericShape s text) :
    V3.handleNumberCommands s text = (s, none) := by
  rcases h with ⟨h1, h2, h3⟩ | ⟨h1, h2, h3⟩
    | ⟨h1, h2, h3, h4, h5, h6⟩ | ⟨h1, h2, h3, h4, h5, h6⟩
  · simp [V3.handleNumberCommands, h1, h2, V3.remove_todo_fail h3]
  · simp [V3.handleNumberCommands, h1, h2, V3.toggle_todo_fail h3]
  · rcases h5 with h5 | h5 | h5 <;>
      simp [V3.handleNumberCommands, h1, h2, h3, h4, h5,
        V3.move_todo_fail h6]
  · unfold V3.handleNumberCommands
    rw [if_neg (by simp [h1]), if_neg (by simp [h2]), if_neg (by simp [h3]),
      if_pos h4]
    try dsimp only
    rw [if_pos h5]
    try dsimp only
    rcases h6 with h6 | h6
    · rw [V3.merge_todos_fail_left h6]
      simp
    · rw [V3.merge_todos_fail_right h6]
      simp

theorem c1_witness :
    V3.FailingNumericShape ⟨[], 1, []⟩ "-5"
    ∧ V3.handleNumberCommands ⟨[], 1, []⟩ "-5" = (⟨[], 1, []⟩, none) :=
  ⟨by decide, c1_failing_numeric_silent ⟨[], 1, []⟩ "-5" (by decide)⟩

/-- C1 (counterexample): the claim promises that the reply to a failed
numeric command is the rendering of the unchanged list.  On the empty list,
the command "5" leaves the state unchanged but sends nothing at all — the
reply is not the rendered list. -/
theorem c1_counterexample :
    V3.handleNumberCommands ⟨[], 1, []⟩ "5" = (⟨[], 1, []⟩, none)
    ∧ ¬ (V3.handleNumberCommands ⟨[], 1, []⟩ "5").2
        = some (V3.get_formatted_list ⟨[], 1, []⟩) := by
  constructor <;> decide

lemma foldl_add_todos :
    ∀ (lines : List String) (s : V3.UserState),
      ∃ new : List V3.TodoItem,
        (lines.foldl (fun st line => (V3.add_todo st line).2) s).todos
          = s.todos ++ new
        ∧ new.length = lines.length
  | [], s => ⟨[], by simp, rfl⟩
  | l :: ls, s => by
      obtain ⟨new, hnew, hlen⟩ := foldl_add_todos ls (V3.add_todo s l).2
      refine ⟨(V3.add_todo s l).1 :: new, ?_, by simp [hlen]⟩
      rw [List.foldl_cons, hnew]
      simp [V3.add_todo, List.append_assoc]

/-- The fall-through add phase appends `addedCount text` fresh tasks (at
least one) and leaves the existing tasks in place. -/
lemma addPhase_adds (s : V3.UserState) (text : String) :
    ∃ new : List V3.TodoItem, new.length = V3.addedCount text
      ∧ new ≠ [] ∧ (V3.addPhase s text).1.todos = s.todos ++ new := by
  unfold V3.addPhase V3.addedCount
  dsimp only
  split
  · next hlen =>
      obtain ⟨new, hnew, hlen'⟩ := foldl_add_todos _ s
      refine ⟨new, hlen', ?_, hnew⟩
      intro hnil
      rw [hnil] at hlen'
      simp at hlen'
      omega
  · next hlen =>
      exact ⟨[(V3.add_todo s text).1], rfl, by simp, by simp [V3.add_todo]⟩

/-- C6 (amended, v3): input that matches no menu literal and none of the
dispatcher's guards falls through to the add phase: at least one task
(`addedCount text` of them) is appended, nothing else changes, and the new
list is rendered and sent.  The original claim's guard list is too narrow:
the code's third branch swallows *any* "digits followed by one extra
character", not just the three section markers, so such text is dropped
rather than added (see the counterexample). -/
theorem c6_fallthrough_add (s : V3.UserState) (text : String)
    (h : V3.NotCommandShaped text) :
    V3.handleNumberCommands s text = V3.addPhase s text
    ∧ (∃ new : List V3.TodoItem, new.length = V3.addedCount text
        ∧ new ≠ [] ∧ (V3.addPhase s text).1.todos = s.todos ++ new)
    ∧ (V3.addPhase s text).2
        = some (V3.get_formatted_list (V3.addPhase s text).1) := by
  obtain ⟨hm, h1, h2, h3, h4⟩ := h
  refine ⟨?_, addPhase_adds s text, rfl⟩
  cases hc : pyContainsChar text '+'
  · unfold V3.handleNumberCommands
    rw [if_neg (by simp [h1]), if_neg (by simp [h2]), if_neg (by simp [h3]),
      if_neg (by simp [hc])]
  · unfold V3.handleNumberCommands
    rw [if_neg (by simp [h1]), if_neg (by simp [h2]), if_neg (by simp [h3]),
      if_pos hc]
    try dsimp only
    have hnc : ¬ ((decide ((pySplitChar text '+').length = 2)
        && pyIsDigit ((pySplitChar text '+').getD 0 "")
        && pyIsDigit ((pySplitChar text '+').getD 1 "")) = true) := by
      rw [h4]
      decide
    rw [if_neg hnc]

theorem c6_witness :
    V3.NotCommandShaped "abc"
    ∧ (V3.handleNumberCommands ⟨[], 1, []⟩ "abc"
        = V3.addPhase ⟨[], 1, []⟩ "abc"
      ∧ (∃ new : List V3.TodoItem, new.length = V3.addedCount "abc"
          ∧ new ≠ []
          ∧ (V3.addPhase ⟨[], 1, []⟩ "abc").1.todos
              = (⟨[], 1, []⟩ : V3.UserState).todos ++ new)
      ∧ (V3.addPhase ⟨[], 1, []⟩ "abc").2
          = some (V3.get_formatted_list (V3.addPhase ⟨[], 1, []⟩ "abc").1)) :=
  ⟨by decide, c6_fallthrough_add ⟨[], 1, []⟩ "abc" (by decide)⟩

/-- C6 (counterexample): "1x" matches none of the claim's command shapes
(the last character is not a section marker), so per the claim it must be
added as a new task.  The v3 dispatcher instead hits the section-move
branch (digits + one arbitrary character), finds no target section, and
returns having added nothing and sent nothing. -/
theorem c6_counterexample :
    V3.handleNumberCommands ⟨[], 1, []⟩ "1x" = (⟨[], 1, []⟩, none)
    ∧ ¬ (V3.handleNumberCommands ⟨[], 1, []⟩ "1x").1.todos
        = [⟨"1x", 1, false, V3.Section.zakupivlia⟩] := by
  constructor <;> decide

lemma ne_empty_of_data {s : String} (h : s.data.isEmpty = false) :
    s ≠ "" := by
  intro he
  subst he
  simp at h

lemma v1_step_mem {tv : V1.Todo1} {u : V1.UserData} {line' : String}
    {sect : Nat}
    (ht : tv ∈ (if line'.data.isEmpty then u
      else { u with todos := u.todos ++ [⟨u.next_id, line', sect, false⟩],
                    next_id := u.next_id + 1 }).todos) :
    tv ∈ u.todos ∨ tv.text ≠ "" := by
  split at ht
  · exact Or.inl ht
  · next hguard =>
      rcases List.mem_append.mp ht with ht | ht
      · exact Or.inl ht
      · right
        rcases List.mem_singleton.mp ht with rfl
        exact ne_empty_of_data (by simpa using hguard)

lemma v1_addLine_mem {tv : V1.Todo1} (u : V1.UserData) (line : String)
    (ht : tv ∈ (V1.addLine u line).todos) :
    tv ∈ u.todos ∨ tv.text ≠ "" := by
  unfold V1.addLine at ht
  dsimp only at ht
  exact v1_step_mem ht

lemma v1_fold_mem {tv : V1.Todo1} :
    ∀ (lines : List String) (u : V1.UserData),
      tv ∈ (lines.foldl V1.addLine u).todos → tv ∈ u.todos ∨ tv.text ≠ ""
  | [], _, ht => Or.inl ht
  | l :: ls, u, ht => by
      rcases v1_fold_mem ls (V1.addLine u l) ht with hm | hm
      · exact v1_addLine_mem u l hm
      · exact Or.inr hm

lemma append_space_ne_empty (a b : String) : a ++ " " ++ b ≠ "" := by
  intro h
  have hd := congrArg String.data h
  simp [String.data_append] at hd

/-- C10 (amended): every task the v1 add operation creates has non-empty
text (the `if line:` guard), and a task produced by a v3 merge has
non-empty text (it contains the joining space).  The v3 `add_todo`,
however, creates the task even when nothing remains after stripping the
`!`/`!!` prefix, so a v3 state can hold an empty-text task (see the
counterexample). -/
theorem c10_nonempty_texts (u : V1.UserData) (text : String)
    (tv : V1.Todo1) (s : V3.UserState) (n1 n2 : Nat) (t : V3.TodoItem) :
    (tv ∈ (V1.add_todo_from_text u text).todos →
      tv ∈ u.todos ∨ tv.text ≠ "")
    ∧ (t ∈ (V3.merge_todos s n1 n2).2.todos →
      t ∈ s.todos ∨ t.text ≠ "") := by
  constructor
  · intro ht
    exact v1_fold_mem _ u ht
  · intro ht
    unfold V3.merge_todos at ht
    rcases h1 : V3.lookupPair s n1 with _ | ⟨i, t1⟩ <;> rw [h1] at ht
    · exact Or.inl ht
    rcases h2 : V3.lookupPair s n2 with _ | ⟨j, t2⟩ <;> rw [h2] at ht
    · exact Or.inl ht
    dsimp only at ht
    split at ht
    · have ht' : t ∈ s.todos.set i (⟨t1.text ++ " " ++ t2.text, t1.item_id,
          t1.crossed_out, t1.sect⟩ : V3.TodoItem) :=
        (List.eraseIdx_sublist _ j).subset ht
      rcases List.mem_or_eq_of_mem_set ht' with hm | rfl
      · exact Or.inl hm
      · exact Or.inr (append_space_ne_empty _ _)
    · exact Or.inl ht

theorem c10_witness :
    ((⟨1, "a", 0, false⟩ : V1.Todo1)
      ∈ (V1.add_todo_from_text ⟨[], 1, none⟩ "a").todos)
    ∧ ((⟨1, "a", 0, false⟩ : V1.Todo1)
        ∈ (⟨[], 1, none⟩ : V1.UserData).todos ∨ ("a" : String) ≠ "") :=
  ⟨by decide,
   (c10_nonempty_texts ⟨[], 1, none⟩ "a" ⟨1, "a", 0, false⟩
      ⟨[], 1, []⟩ 1 2 ⟨"a", 1, false, V3.Section.zakupivlia⟩).1 (by decide)⟩

/-- C10 (counterexample): sending `"!!"` reaches `add_todo`, which strips
the prefix and stores the remaining empty string as a task's text — a
reachable state holds a task with `text = ""`, contradicting the claimed
invariant. -/
theorem c10_counterexample :
    V3.Reachable (⟨[⟨"", 1, false, V3.Section.volynka⟩], 2, []⟩ :
      V3.UserState)
    ∧ (V3.add_todo ⟨[], 1, []⟩ "!!").2
        = (⟨[⟨"", 1, false, V3.Section.volynka⟩], 2, []⟩ : V3.UserState)
    ∧ ∃ t ∈ (⟨[⟨"", 1, false, V3.Section.volynka⟩], 2, []⟩ :
        V3.UserState).todos, t.text = "" := by
  refine ⟨?_, by decide, by decide⟩
  have h := V3.Reachable.add _ "!!" V3.Reachable.init
  have he : (V3.add_todo ⟨[], 1, []⟩ "!!").2
      = (⟨[⟨"", 1, false, V3.Section.volynka⟩], 2, []⟩ : V3.UserState) := by
    decide
  rw [he] at h
  exact h

end TodoBot
